import Mathlib

/-!
Verification of the Z-StudioArt (PopGraph Studio) repository against its
natural-language specification.

The repository's `src/` tree contains the frontend utilities and components
(`membership.ts`, `ErrorBoundary.tsx`, layout components).  The backend
Generation & Fusion Pipeline (Compositor, Product Extractor, Asset Store
Adapter, Generative Model Client, Pipeline Orchestrator, History store) is
described by the specification but its code is not part of the shown tree;
those components are modelled here directly from the specification's words,
and each such definition is marked `Modelled from the spec:` in its doc
comment.  Frontend definitions are shallow embeddings of the TypeScript
source and keep its names.
-/

namespace ZStudio

/-! ## Frontend: membership configuration (src/frontend/src/utils/membership.ts) -/

/-- Embeds the TypeScript interface `MembershipConfig { label; style }`. -/
structure MembershipConfig where
  label : String
  style : String
deriving DecidableEq, Repr

/-- The membership tier type `MembershipTier = 'free' | 'basic' | 'professional'`
(from `src/frontend/src/types`, witnessed by the membership test suite). -/
inductive MembershipTier where
  | free
  | basic
  | professional
deriving DecidableEq, Repr

/-- The string name of a tier, i.e. the key under which it appears in the
TypeScript record `MEMBERSHIP_CONFIG`. -/
def MembershipTier.name : MembershipTier → String
  | .free => "free"
  | .basic => "basic"
  | .professional => "professional"

/-- Embeds the constant `MEMBERSHIP_CONFIG : Record<MembershipTier, MembershipConfig>`
from membership.ts, with its exact labels and Tailwind style strings. -/
def MEMBERSHIP_CONFIG : MembershipTier → MembershipConfig
  | .professional =>
      { label := "专业版"
        style := "bg-purple-500/20 text-purple-300 border border-purple-500/30" }
  | .basic =>
      { label := "基础版"
        style := "bg-blue-500/20 text-blue-300 border border-blue-500/30" }
  | .free =>
      { label := "免费版"
        style := "bg-gray-500/20 text-gray-300 border border-gray-500/30" }

/-- Embeds `MEMBERSHIP_TIERS: MembershipTier[] = ['free', 'basic', 'professional']`. -/
def MEMBERSHIP_TIERS : List MembershipTier :=
  [.free, .basic, .professional]

/-- Own-key lookup on the record `MEMBERSHIP_CONFIG`: a string is an own key
exactly when it is the name of one of the three tiers.  This is only the
own-key part of the source's `tier in MEMBERSHIP_CONFIG` test: the JavaScript
`in` operator additionally consults the prototype chain (see
`inMembershipConfig`). -/
def lookupTier (tier : String) : Option MembershipTier :=
  if tier = "free" then some .free
  else if tier = "basic" then some .basic
  else if tier = "professional" then some .professional
  else none

/-- Own-key reading of `getMembershipConfig(tier: string)`: the matching entry
on the three own keys of `MEMBERSHIP_CONFIG`, the free entry otherwise.  It
agrees with the runtime on every string that is not an inherited
`Object.prototype` property name; the faithful embedding including the
prototype chain is `getMembershipConfigJs`. -/
def getMembershipConfig (tier : String) : MembershipConfig :=
  match lookupTier tier with
  | some t => MEMBERSHIP_CONFIG t
  | none => MEMBERSHIP_CONFIG .free

/-- The property names every plain JavaScript object inherits from
`Object.prototype`, on which the `in` operator answers true for
`MEMBERSHIP_CONFIG` even though they are not own keys. -/
def objectPrototypeKeys : List String :=
  ["constructor", "hasOwnProperty", "isPrototypeOf", "propertyIsEnumerable",
   "toLocaleString", "toString", "valueOf", "__proto__", "__defineGetter__",
   "__defineSetter__", "__lookupGetter__", "__lookupSetter__"]

/-- A value read off `MEMBERSHIP_CONFIG` by bracket indexing: one of its own
entries, or a member inherited from `Object.prototype` (a function or
accessor, not a `MembershipConfig`). -/
inductive MemberValue where
  | config (c : MembershipConfig)
  | inherited (name : String)
deriving DecidableEq, Repr

/-- Embeds the source's key test `tier in MEMBERSHIP_CONFIG`
(membership.ts:48) faithfully: the JavaScript `in` operator is true on the
three own keys and on every `Object.prototype` property name. -/
def inMembershipConfig (tier : String) : Bool :=
  (lookupTier tier).isSome || objectPrototypeKeys.contains tier

/-- Embeds `getMembershipConfig(tier: string)` (membership.ts:47-52)
faithfully to the runtime: when `tier in MEMBERSHIP_CONFIG` holds,
`MEMBERSHIP_CONFIG[tier as MembershipTier]` yields the own entry on the three
tier keys but the inherited `Object.prototype` member on prototype-chain
names; only otherwise is `MEMBERSHIP_CONFIG.free` returned. -/
def getMembershipConfigJs (tier : String) : MemberValue :=
  if inMembershipConfig tier then
    match lookupTier tier with
    | some t => .config (MEMBERSHIP_CONFIG t)
    | none => .inherited tier
  else .config (MEMBERSHIP_CONFIG .free)

/-- Embeds `isValidMembershipTier(tier: string)`: membership of `tier` in
`MEMBERSHIP_TIERS` under string comparison (`includes`). -/
def isValidMembershipTier (tier : String) : Bool :=
  MEMBERSHIP_TIERS.any (fun t => t.name == tier)

/-! ## Frontend: ErrorBoundary (src/frontend/src/components/common/ErrorBoundary.tsx) -/

/-- A caught JavaScript error, identified by its message. -/
structure JsError where
  message : String
deriving DecidableEq, Repr

/-- A rendered React node, as far as `ErrorBoundary.render` distinguishes them:
an arbitrary node (children or a custom fallback), or the default
`ErrorFallback` element carrying the caught error. -/
inductive ReactNode where
  | node (tag : String)
  | errorFallbackElem (error : Option JsError)
deriving DecidableEq, Repr

/-- Embeds `ErrorBoundaryProps { children; fallback?; }` (the `onError` callback
is an effect and does not influence rendering). -/
structure ErrorBoundaryProps where
  children : ReactNode
  fallback : Option ReactNode
deriving DecidableEq, Repr

/-- Embeds `ErrorBoundaryState { hasError: boolean; error?: Error }`. -/
structure ErrorBoundaryState where
  hasError : Bool
  error : Option JsError
deriving DecidableEq, Repr

/-- Embeds `static getDerivedStateFromError(error)`: returns
`{ hasError: true, error }`. -/
def getDerivedStateFromError (error : JsError) : ErrorBoundaryState :=
  { hasError := true, error := some error }

/-- Embeds `handleRetry`: `setState({ hasError: false, error: undefined })`. -/
def handleRetry : ErrorBoundaryState :=
  { hasError := false, error := none }

/-- Embeds `ErrorBoundary.render()`: with `hasError` set, render the custom
fallback when provided and otherwise the default `ErrorFallback` with the
recorded error; with no error render the children. -/
def ErrorBoundary.render (props : ErrorBoundaryProps)
    (state : ErrorBoundaryState) : ReactNode :=
  if state.hasError then
    match props.fallback with
    | some fb => fb
    | none => ReactNode.errorFallbackElem state.error
  else
    props.children

/-! ## Backend pipeline, modelled from the specification

The Generation & Fusion Pipeline (spec §2–§7) is not part of the shown
source tree; every definition below is modelled from the specification
text. -/

/-- Modelled from the spec: the error taxonomy of §7 (the backend error
types are not in the shown tree). -/
inductive ErrorKind where
  | validationError
  | unauthorizedError
  | quotaExceeded
  | modelRejected
  | modelTimeout
  | transportError
  | noForegroundDetected
  | unsupportedImageFormat
  | storageFailure
  | unknownTemplate
  | internalFault
deriving DecidableEq, Repr

/-- Modelled from the spec: terminal status of a pipeline run as recorded in a
`HistoryRecord` (the backend history types are not in the shown tree). -/
inductive RunStatus where
  | completed
  | failed
deriving DecidableEq, Repr

/-- Modelled from the spec: `HistoryRecord { request_id, owner_id, status,
asset_refs[], error?, timestamps }` of §3 (the backend history store is not in
the shown tree). -/
structure HistoryRecord where
  request_id : String
  owner_id : String
  status : RunStatus
  asset_refs : List String
  error : Option ErrorKind
  createdAt : Nat
deriving DecidableEq, Repr

/-- Result of a history append, `Ok | Conflict` (spec §6). -/
inductive AppendResult where
  | ok
  | conflict
deriving DecidableEq, Repr

/-- Modelled from the spec: `append(HistoryRecord) -> Ok | Conflict`, idempotent
on request id — an "insert if absent for this request id" operation (spec §5,
§6; the backend history store is not in the shown tree). -/
def historyAppend (st : List HistoryRecord) (r : HistoryRecord) :
    List HistoryRecord × AppendResult :=
  if st.any (fun x => x.request_id == r.request_id) then (st, .conflict)
  else (r :: st, .ok)

/-- Number of stored records carrying a given request id. -/
def countForId (st : List HistoryRecord) (id : String) : Nat :=
  st.countP (fun x => x.request_id == id)

/-! ### Asset Store Adapter (spec §4.5), with base64 for the Inline backend -/

/-- The standard base64 alphabet, used by the Inline backend to encode bytes
into the response. -/
def b64chars : List Char :=
  ['A','B','C','D','E','F','G','H','I','J','K','L','M','N','O','P','Q','R',
   'S','T','U','V','W','X','Y','Z','a','b','c','d','e','f','g','h','i','j',
   'k','l','m','n','o','p','q','r','s','t','u','v','w','x','y','z','0','1',
   '2','3','4','5','6','7','8','9','+','/']

/-- Base64 character of one sextet value. -/
def encodeChar (n : Nat) : Char := b64chars.getD n '='

/-- Sextet value of one base64 character. -/
def decodeChar (c : Char) : Nat := b64chars.indexOf c

/-- The 6-bit groups of a byte sequence: each group of three 8-bit bytes is
re-cut into four 6-bit values, with a short final group for a remainder. -/
def b64sextets : List Nat → List Nat
  | [] => []
  | [a] => [a / 4, a % 4 * 16]
  | [a, b] => [a / 4, a % 4 * 16 + b / 16, b % 16 * 4]
  | a :: b :: c :: rest =>
      a / 4 :: (a % 4 * 16 + b / 16) :: (b % 16 * 4 + c / 64) :: c % 64 ::
        b64sextets rest

/-- Inverse re-cutting: each group of four sextets back into three bytes, a
final group of two or three sextets into one or two bytes. -/
def b64unsextets : List Nat → List Nat
  | x :: y :: z :: w :: rest =>
      (x * 4 + y / 16) :: (y % 16 * 16 + z / 4) :: (z % 4 * 64 + w) ::
        b64unsextets rest
  | [x, y] => [x * 4 + y / 16]
  | [x, y, z] => [x * 4 + y / 16, y % 16 * 16 + z / 4]
  | _ => []

/-- Base64 encoding of a byte sequence, with `=` padding to a multiple of four
characters. -/
def b64encode (bytes : List Nat) : List Char :=
  (b64sextets bytes).map encodeChar ++
    (if bytes.length % 3 = 1 then ['=', '=']
     else if bytes.length % 3 = 2 then ['=']
     else [])

/-- Base64 decoding: drop padding, map characters back to sextets, regroup. -/
def b64decode (s : List Char) : List Nat :=
  b64unsextets ((s.filter (fun c => c != '=')).map decodeChar)

/-- Modelled from the spec: `StoredAsset { url_or_identifier, storage_mode:
S3|Inline, content_type, size_bytes }` of §3 (the backend asset store is not in
the shown tree). -/
inductive StorageMode where
  | s3
  | inline
deriving DecidableEq, Repr

/-- Modelled from the spec: the stored-asset record of §3. -/
structure StoredAsset where
  url_or_identifier : String
  storage_mode : StorageMode
  content_type : String
  size_bytes : Nat
deriving DecidableEq, Repr

/-- State of the S3-compatible object backend: stored objects keyed by
identifier, plus a key generator. -/
structure S3State where
  objects : List (String × List Nat)
  nextKey : Nat
deriving DecidableEq, Repr

/-- Modelled from the spec: the storage backend sum type `S3Backend |
InlineBackend` of §9, selected once at process start (the backend asset store
is not in the shown tree). -/
inductive Backend where
  | s3 (state : S3State)
  | inlineB
deriving DecidableEq, Repr

/-- A network operation performed by the Asset Store Adapter; the Inline
backend performs none. -/
inductive NetworkOp where
  | s3Put (key : String)
  | s3Get (key : String)
deriving DecidableEq, Repr

/-- Modelled from the spec: `store(bytes, content_type) -> StoredAsset |
Failure` of §4.5.  The S3 backend uploads under a fresh identifier (a network
put); the Inline backend base64-encodes the bytes directly into the returned
asset with no network call.  Returns the successor backend state, the asset,
and the network operations performed. -/
def store (b : Backend) (bytes : List Nat) (ct : String) :
    Backend × StoredAsset × List NetworkOp :=
  match b with
  | .s3 st =>
      let key := "asset-" ++ toString st.nextKey
      (.s3 ⟨(key, bytes) :: st.objects, st.nextKey + 1⟩,
       ⟨key, .s3, ct, bytes.length⟩,
       [.s3Put key])
  | .inlineB =>
      (.inlineB,
       ⟨String.mk (b64encode bytes), .inline, ct, bytes.length⟩,
       [])

/-- Modelled from the spec: `retrieve(ref) -> bytes | Failure` of §4.5.  The
S3 backend fetches the object by identifier (a network get); the Inline
backend decodes the base64 reference locally. -/
def retrieve (b : Backend) (ref : String) :
    Except ErrorKind (List Nat) × List NetworkOp :=
  match b with
  | .s3 st =>
      (match st.objects.lookup ref with
       | some bytes => (.ok bytes, [.s3Get ref])
       | none => (.error .storageFailure, [.s3Get ref]))
  | .inlineB => (.ok (b64decode ref.data), [])

/-- Modelled from the spec: the environment-level storage configuration of §6
(endpoint and credentials, all optional; the backend configuration module is
not in the shown tree). -/
structure StorageConfig where
  s3Endpoint : Option String
  s3AccessKey : Option String
  s3SecretKey : Option String
deriving DecidableEq, Repr

/-- Modelled from the spec: backend selection at process start (§4.5, §9): the
S3 backend exactly when endpoint and credentials are all configured, the
Inline fallback otherwise — never chosen per request. -/
def selectBackend (cfg : StorageConfig) : Backend :=
  if cfg.s3Endpoint.isSome && cfg.s3AccessKey.isSome && cfg.s3SecretKey.isSome
  then .s3 ⟨[], 0⟩
  else .inlineB

/-! ### Images and the Compositor (spec §4.3) -/

/-- Modelled from the spec: an RGBA pixel with byte-valued channels (the
backend image types are not in the shown tree). -/
structure Pixel where
  r : Nat
  g : Nat
  b : Nat
  a : Nat
deriving DecidableEq, Repr

/-- Modelled from the spec: a decoded raster image — declared width and
height with a row-major pixel list (§3). -/
structure Image where
  width : Nat
  height : Nat
  pixels : List Pixel
deriving DecidableEq, Repr

/-- Pixel of an image at raster coordinates, opaque black out of range. -/
def Image.pixelAt (img : Image) (x y : Nat) : Pixel :=
  img.pixels.getD (y * img.width + x) ⟨0, 0, 0, 255⟩

/-- Modelled from the spec: the supported target formats 1:1, 16:9 and 9:16
(README feature list; §8 scenarios). -/
inductive Aspect where
  | square
  | wide
  | tall
deriving DecidableEq, Repr

/-- Width component of the target format's w:h proportion. -/
def Aspect.propW : Aspect → Nat
  | .square => 1
  | .wide => 16
  | .tall => 9

/-- Height component of the target format's w:h proportion. -/
def Aspect.propH : Aspect → Nat
  | .square => 1
  | .wide => 9
  | .tall => 16

/-- Modelled from the spec: the configured output canvas width per format —
the 1080-based social sizes; §8 expects 1080×1080 for 1:1. -/
def Aspect.canvasW : Aspect → Nat
  | .square => 1080
  | .wide => 1920
  | .tall => 1080

/-- Modelled from the spec: the configured output canvas height per format. -/
def Aspect.canvasH : Aspect → Nat
  | .square => 1080
  | .wide => 1080
  | .tall => 1920

/-- Modelled from the spec: "cover" fitting (§4.3 and glossary) — take the
largest centered source rectangle of the target proportion (center-crop the
overflow) and scale it to fill the target canvas, sampling nearest-neighbor.
No letterboxing: the output raster is exactly the target canvas. -/
def coverFit (img : Image) (outW outH : Nat) : Image :=
  let srcW := img.width
  let srcH := img.height
  let cropW := if srcH * outW ≤ srcW * outH then srcH * outW / outH else srcW
  let cropH := if srcH * outW ≤ srcW * outH then srcH else srcW * outH / outW
  let cropX := (srcW - cropW) / 2
  let cropY := (srcH - cropH) / 2
  { width := outW
    height := outH
    pixels := (List.range (outH * outW)).map fun i =>
      let x := i % outW
      let y := i / outW
      img.pixelAt (cropX + x * cropW / outW) (cropY + y * cropH / outH) }

/-- Modelled from the spec: bounding box of the non-transparent pixels of a
cutout (§3, §4.2). -/
structure BBox where
  x0 : Nat
  y0 : Nat
  x1 : Nat
  y1 : Nat
deriving DecidableEq, Repr

/-- Modelled from the spec: `ProductCutout { rgba_pixels, width, height,
bounding_box }` (§3). -/
structure ProductCutout where
  width : Nat
  height : Nat
  rgba_pixels : List Pixel
  bounding_box : BBox
deriving DecidableEq, Repr

/-- Modelled from the spec: compositing placement parameters resolved from
the template or request (§4.3, §4.4): the canvas-width fraction the cutout's
bounding box should occupy (percent), and the placement-zone center
(per-mille of the canvas width and height). -/
structure Placement where
  scalePct : Nat
  centerXPm : Nat
  centerYPm : Nat
deriving DecidableEq, Repr

/-- Modelled from the spec: `CompositeResult` — the terminal image artifact
of one run together with its normalized output format (§3, §4.3). -/
structure CompositeResult where
  image : Image
  format : String
deriving DecidableEq, Repr

/-- Standard alpha "over" compositing of a feathered foreground pixel onto an
opaque background pixel: `result = fg*alpha + bg*(1-alpha)` per channel
(§4.3). -/
def overPixel (fg bg : Pixel) : Pixel :=
  ⟨(fg.r * fg.a + bg.r * (255 - fg.a)) / 255,
   (fg.g * fg.a + bg.g * (255 - fg.a)) / 255,
   (fg.b * fg.a + bg.b * (255 - fg.a)) / 255,
   255⟩

/-- Modelled from the spec: fusion-mode blending (§4.3): the cutout is scaled
so its bounding box occupies a placement-determined fraction of the canvas,
positioned at the placement center, and alpha-composited over the fitted
background. -/
def composeFusion (canvas : Image) (cut : ProductCutout)
    (pl : Placement) : Image :=
  let bbW := cut.bounding_box.x1 + 1 - cut.bounding_box.x0
  let bbH := cut.bounding_box.y1 + 1 - cut.bounding_box.y0
  let tw := canvas.width * pl.scalePct / 100
  let th := if bbW = 0 then 0 else tw * bbH / bbW
  let dx0 := canvas.width * pl.centerXPm / 1000 - tw / 2
  let dy0 := canvas.height * pl.centerYPm / 1000 - th / 2
  { width := canvas.width
    height := canvas.height
    pixels := (List.range (canvas.height * canvas.width)).map fun i =>
      let x := i % canvas.width
      let y := i / canvas.width
      let bgp := canvas.pixelAt x y
      if dx0 ≤ x ∧ x < dx0 + tw ∧ dy0 ≤ y ∧ y < dy0 + th ∧ 0 < tw ∧ 0 < th
      then
        let sx := cut.bounding_box.x0 + (x - dx0) * bbW / tw
        let sy := cut.bounding_box.y0 + (y - dy0) * bbH / th
        overPixel (cut.rgba_pixels.getD (sy * cut.width + sx) ⟨0, 0, 0, 0⟩) bgp
      else bgp }

/-- Modelled from the spec: `compose(background, cutout?, placement,
target_aspect) -> CompositeResult` (§4.3).  Poster mode (no cutout)
cover-fits the background to the target canvas; fusion mode additionally
alpha-composites the scaled cutout at the placement.  A pure function of its
arguments: no external I/O. -/
def compose (background : Image) (cutout : Option ProductCutout)
    (placement : Placement) (aspect : Aspect) : CompositeResult :=
  let canvas := coverFit background aspect.canvasW aspect.canvasH
  match cutout with
  | none => ⟨canvas, "png"⟩
  | some cut => ⟨composeFusion canvas cut placement, "png"⟩

/-! ### Generative Model Client and Pipeline Orchestrator (spec §4.1, §4.6) -/

/-- Modelled from the spec: the remote job status observable through the
submit-then-poll capability interface (§4.1, §9) — a test double supplies the
status observed at each poll. -/
inductive PollStatus where
  | running
  | succeeded (image : Image)
  | failed
deriving DecidableEq, Repr

/-- Modelled from the spec: the poll loop of the Generative Model Client
(§4.1): poll until `succeeded`, `failed`, or the configured poll budget (the
wall-clock timeout) is exhausted; a timeout yields the typed failure
`ModelTimeout` rather than an exception.  `statusAt t` is the status observed
at the t-th poll; the last argument is the remaining poll budget. -/
def pollLoop (statusAt : Nat → PollStatus) (t : Nat) :
    Nat → Except ErrorKind Image
  | 0 => .error .modelTimeout
  | fuel + 1 =>
      match statusAt t with
      | .succeeded img => .ok img
      | .failed => .error .modelRejected
      | .running => pollLoop statusAt (t + 1) fuel

/-- Modelled from the spec: `generate(prompt, constraints) ->
GeneratedBackground | Failure` (§4.1), polling from time zero with the
configured budget. -/
def generate (statusAt : Nat → PollStatus) (maxPolls : Nat) :
    Except ErrorKind Image :=
  pollLoop statusAt 0 maxPolls

/-- Modelled from the spec: serialization of the final composite into the
normalized output encoding (§4.3): dimension header followed by raw channel
bytes. -/
def encodeImage (res : CompositeResult) : List Nat :=
  [res.image.width % 256, res.image.width / 256 % 256,
   res.image.height % 256, res.image.height / 256 % 256] ++
  (res.image.pixels.map
    (fun p => [p.r % 256, p.g % 256, p.b % 256, p.a % 256])).flatten

/-- Modelled from the spec: the per-request pipeline state machine of §4.6. -/
inductive RunState where
  | accepted
  | generating
  | extracting
  | compositing
  | storing
  | completedState (asset : StoredAsset)
  | failedState (error : ErrorKind)
deriving DecidableEq, Repr

/-- Modelled from the spec: the observable outcome of one orchestrated run —
terminal state, the stored asset if any, the storage backend after the run,
and the history store after the run's single record is written. -/
structure RunOutcome where
  state : RunState
  stored : Option StoredAsset
  backend : Backend
  history : List HistoryRecord
deriving DecidableEq, Repr

/-- Modelled from the spec: the Pipeline Orchestrator (§4.6) for a poster-mode
request: generate, composite, store, then write exactly one history record.
Any component failure short-circuits to `Failed` with the originating error
preserved in the record, and no asset is stored. -/
def runPoster (statusAt : Nat → PollStatus) (maxPolls : Nat)
    (placement : Placement) (aspect : Aspect) (backend : Backend)
    (history : List HistoryRecord) (requestId ownerId : String) (now : Nat) :
    RunOutcome :=
  match generate statusAt maxPolls with
  | .error e =>
      { state := .failedState e
        stored := none
        backend := backend
        history := (historyAppend history
          ⟨requestId, ownerId, .failed, [], some e, now⟩).1 }
  | .ok bg =>
      let result := compose bg none placement aspect
      let stored := store backend (encodeImage result) "image/png"
      { state := .completedState stored.2.1
        stored := some stored.2.1
        backend := stored.1
        history := (historyAppend history
          ⟨requestId, ownerId, .completed,
            [stored.2.1.url_or_identifier], none, now⟩).1 }

/-! ### Product Extractor (spec §4.2) -/

/-- Modelled from the spec: extractor configuration (§9): the color-distance
threshold and feather width are exposed configuration, together with the
minimal foreground area fraction in percent. -/
structure ExtractConfig where
  threshold : Nat
  featherWidth : Nat
  minAreaPct : Nat
deriving DecidableEq, Repr

/-- Absolute difference of two channel values. -/
def chanDiff (a b : Nat) : Nat := (a - b) + (b - a)

/-- Squared color distance between two pixels over the color channels. -/
def colorDist (p q : Pixel) : Nat :=
  chanDiff p.r q.r * chanDiff p.r q.r +
  chanDiff p.g q.g * chanDiff p.g q.g +
  chanDiff p.b q.b * chanDiff p.b q.b

/-- Indices of the border region of a w×h raster. -/
def borderIdx (w h : Nat) : List Nat :=
  (List.range (h * w)).filter fun i =>
    i % w == 0 || i % w == w - 1 || i / w == 0 || i / w == h - 1

/-- The dominant color of a pixel list: its most frequent element, defaulting
to opaque black on an empty list. -/
def dominant (l : List Pixel) : Pixel :=
  l.foldl (fun best x => if l.count best < l.count x then x else best)
    (l.headD ⟨0, 0, 0, 255⟩)

/-- Modelled from the spec: background-color estimation by sampling the
border-region pixels for the dominant color (§4.2). -/
def estimateBackground (img : Image) : Pixel :=
  dominant ((borderIdx img.width img.height).map
    (fun i => img.pixels.getD i ⟨0, 0, 0, 255⟩))

/-- Modelled from the spec: the per-pixel color-distance map against the
background estimate, thresholded into a binary foreground mask (§4.2). -/
def thresholdMask (img : Image) (cfg : ExtractConfig) : List Bool :=
  let bg := estimateBackground img
  (List.range (img.height * img.width)).map fun i =>
    decide (cfg.threshold < colorDist (img.pixels.getD i ⟨0, 0, 0, 255⟩) bg)

/-- The 4-neighbourhood of index i in a w×h raster. -/
def neighborsIdx (w h i : Nat) : List Nat :=
  (if 0 < i % w then [i - 1] else []) ++
  (if i % w + 1 < w then [i + 1] else []) ++
  (if 0 < i / w then [i - w] else []) ++
  (if i / w + 1 < h then [i + w] else [])

/-- Mask bit at an index, background out of range. -/
def maskAt (mask : List Bool) (i : Nat) : Bool := mask.getD i false

/-- Noise-removal half of the cleanup: a foreground pixel with no foreground
neighbour is removed. -/
def denoiseMask (w h : Nat) (mask : List Bool) : List Bool :=
  (List.range (h * w)).map fun i =>
    maskAt mask i && (neighborsIdx w h i).any (maskAt mask)

/-- Hole filling half of the cleanup: a background pixel whose (existing)
neighbours are all foreground becomes foreground. -/
def fillMask (w h : Nat) (mask : List Bool) : List Bool :=
  (List.range (h * w)).map fun i =>
    maskAt mask i ||
      (!(neighborsIdx w h i).isEmpty && (neighborsIdx w h i).all (maskAt mask))

/-- Modelled from the spec: small morphological cleanup of the binary mask
(§4.2): noise removal followed by hole filling. -/
def cleanupMask (w h : Nat) (mask : List Bool) : List Bool :=
  fillMask w h (denoiseMask w h mask)

/-- Foreground area of a binary mask. -/
def maskArea (mask : List Bool) : Nat := mask.count true

/-- Modelled from the spec: feathering (§4.2): the per-pixel alpha is the mean
of the binary mask over a square window of radius `featherWidth`, softening
the cutout edge. -/
def featherAlpha (w h : Nat) (cfg : ExtractConfig) (mask : List Bool)
    (i : Nat) : Nat :=
  let f := cfg.featherWidth
  let x := i % w
  let y := i / w
  let offs := List.range (2 * f + 1)
  let cnt := offs.foldl (fun acc dy =>
    acc + offs.countP (fun dx =>
      x + dx - f < w && y + dy - f < h &&
        maskAt mask ((y + dy - f) * w + (x + dx - f)))) 0
  255 * cnt / ((2 * f + 1) * (2 * f + 1))

/-- Tight bounding box of the foreground pixels of a mask (zero box when the
mask is empty). -/
def maskBBox (w h : Nat) (mask : List Bool) : BBox :=
  match (List.range (h * w)).filter (maskAt mask) with
  | [] => ⟨0, 0, 0, 0⟩
  | i0 :: rest =>
      rest.foldl (fun bb i =>
        ⟨min bb.x0 (i % w), min bb.y0 (i / w),
         max bb.x1 (i % w), max bb.y1 (i / w)⟩)
        ⟨i0 % w, i0 / w, i0 % w, i0 / w⟩

/-- Modelled from the spec: `extract(source_image) -> ProductCutout | Failure`
(§4.2): decode the upload, estimate the dominant background color from the
border region, threshold the color-distance map into a binary mask, apply
morphological cleanup, fail with `NoForegroundDetected` when the mask covers
less than the minimal area fraction, otherwise feather the mask, multiply the
color channels by the feathered alpha, and compute the tight bounding box.
Decoding is a capability argument (a test double can supply it); a decode
failure is `UnsupportedImageFormat`. -/
def extract (decode : List Nat → Option Image) (cfg : ExtractConfig)
    (source : List Nat) : Except ErrorKind ProductCutout :=
  match decode source with
  | none => .error .unsupportedImageFormat
  | some img =>
      let mask := cleanupMask img.width img.height (thresholdMask img cfg)
      if maskArea mask * 100 < cfg.minAreaPct * (img.width * img.height) then
        .error .noForegroundDetected
      else
        .ok ⟨img.width, img.height,
          (List.range (img.height * img.width)).map (fun i =>
            let p := img.pixels.getD i ⟨0, 0, 0, 255⟩
            let alpha := featherAlpha img.width img.height cfg mask i
            ⟨p.r * alpha / 255, p.g * alpha / 255, p.b * alpha / 255, alpha⟩),
          maskBBox img.width img.height mask⟩

end ZStudio

namespace ZStudio

/-! ## Base64 round-trip lemmas -/

/-- Regrouping sextets back into bytes inverts the byte-to-sextet cut, for
genuine bytes (< 256). -/
theorem b64unsextets_b64sextets :
    ∀ l : List Nat, (∀ x ∈ l, x < 256) → b64unsextets (b64sextets l) = l
  | [], _ => rfl
  | [a], _ => by
      simp only [b64sextets, b64unsextets, List.cons.injEq, and_true]
      omega
  | [a, b], h => by
      have hb : b < 256 := h b (by simp)
      simp only [b64sextets, b64unsextets, List.cons.injEq, and_true]
      refine ⟨?_, ?_⟩ <;> omega
  | a :: b :: c :: rest, h => by
      have hb : b < 256 := h b (by simp)
      have hc : c < 256 := h c (by simp)
      have ih := b64unsextets_b64sextets rest
        (fun x hx => h x (by simp; tauto))
      simp only [b64sextets, b64unsextets, List.cons.injEq, ih]
      refine ⟨?_, ?_, ?_, trivial⟩ <;> omega

/-- Every sextet produced from genuine bytes is below 64. -/
theorem b64sextets_lt :
    ∀ l : List Nat, (∀ x ∈ l, x < 256) → ∀ s ∈ b64sextets l, s < 64
  | [], _ => by simp [b64sextets]
  | [a], h => by
      have ha : a < 256 := h a (by simp)
      simp only [b64sextets, List.mem_cons, List.not_mem_nil, or_false]
      rintro s (rfl | rfl) <;> omega
  | [a, b], h => by
      have ha : a < 256 := h a (by simp)
      have hb : b < 256 := h b (by simp)
      simp only [b64sextets, List.mem_cons, List.not_mem_nil, or_false]
      rintro s (rfl | rfl | rfl) <;> omega
  | a :: b :: c :: rest, h => by
      have ha : a < 256 := h a (by simp)
      have hb : b < 256 := h b (by simp)
      have hc : c < 256 := h c (by simp)
      have ih := b64sextets_lt rest (fun x hx => h x (by simp; tauto))
      simp only [b64sextets, List.mem_cons]
      rintro s (rfl | rfl | rfl | rfl | hs)
      · omega
      · omega
      · omega
      · omega
      · exact ih s hs

/-- Decoding inverts encoding on every sextet value. -/
theorem decodeChar_encodeChar : ∀ n < 64, decodeChar (encodeChar n) = n := by
  decide

/-- No sextet value encodes to the padding character. -/
theorem encodeChar_ne_pad : ∀ n < 64, encodeChar n ≠ '=' := by
  decide

/-- Base64 decoding inverts base64 encoding on every byte sequence. -/
theorem b64decode_b64encode (bytes : List Nat) (h : ∀ x ∈ bytes, x < 256) :
    b64decode (b64encode bytes) = bytes := by
  unfold b64decode b64encode
  rw [List.filter_append]
  have hpad :
      (if bytes.length % 3 = 1 then ['=', '=']
       else if bytes.length % 3 = 2 then ['=']
       else []).filter (fun c => c != '=') = [] := by
    split
    · rfl
    · split <;> rfl
  have henc : ((b64sextets bytes).map encodeChar).filter (fun c => c != '=') =
      (b64sextets bytes).map encodeChar := by
    apply List.filter_eq_self.mpr
    intro c hc
    obtain ⟨s, hs, rfl⟩ := List.mem_map.mp hc
    have hlt : s < 64 := b64sextets_lt bytes h s hs
    simpa using encodeChar_ne_pad s hlt
  rw [hpad, henc, List.append_nil, List.map_map]
  have hmap : (b64sextets bytes).map (decodeChar ∘ encodeChar) =
      (b64sextets bytes).map id := by
    apply List.map_congr_left
    intro s hs
    exact decodeChar_encodeChar s (b64sextets_lt bytes h s hs)
  rw [hmap, List.map_id]
  exact b64unsextets_b64sextets bytes h

/-! ## Theorems for the storage and history claims -/

/-- C4: `historyAppend` is idempotent on request id — appending twice with the
same request id stores exactly one record (the second call reports a
conflict) — and the at-most-one-record-per-id invariant is preserved by every
append. -/
theorem c4_historyAppend_idempotent :
    (∀ (st : List HistoryRecord) (r r2 : HistoryRecord),
        r2.request_id = r.request_id →
        countForId st r.request_id = 0 →
        countForId (historyAppend (historyAppend st r).1 r2).1 r.request_id = 1 ∧
        (historyAppend (historyAppend st r).1 r2).2 = .conflict) ∧
    (∀ (st : List HistoryRecord) (r : HistoryRecord),
        (∀ id, countForId st id ≤ 1) →
        ∀ id, countForId (historyAppend st r).1 id ≤ 1) := by
  constructor
  · intro st r r2 h2 h0
    have habs : st.any (fun x => x.request_id == r.request_id) = false := by
      rw [List.any_eq_false]
      intro x hx
      have hz := List.countP_eq_zero.mp h0 x hx
      simpa using hz
    have h1 : historyAppend st r = (r :: st, .ok) := by
      simp [historyAppend, habs]
    have hany : (r :: st).any (fun x => x.request_id == r2.request_id) = true := by
      simp [List.any_cons, h2]
    have hcnt : countForId (r :: st) r.request_id =
        countForId st r.request_id + 1 := by
      simp [countForId, List.countP_cons]
    rw [h1]
    constructor
    · show countForId (historyAppend (r :: st) r2).1 r.request_id = 1
      rw [show (historyAppend (r :: st) r2).1 = r :: st by
        simp [historyAppend, hany]]
      rw [hcnt, h0]
    · show (historyAppend (r :: st) r2).2 = .conflict
      simp [historyAppend, hany]
  · intro st r hinv id
    by_cases hany : st.any (fun x => x.request_id == r.request_id) = true
    · rw [show (historyAppend st r).1 = st by simp [historyAppend, hany]]
      exact hinv id
    · have hfalse : st.any (fun x => x.request_id == r.request_id) = false :=
        Bool.eq_false_iff.mpr hany
      rw [show (historyAppend st r).1 = r :: st by simp [historyAppend, hfalse]]
      by_cases hid : r.request_id = id
      · have h0 : countForId st id = 0 := by
          rw [countForId, List.countP_eq_zero]
          intro x hx
          have hne := List.any_eq_false.mp hfalse x hx
          simp only [beq_iff_eq] at hne ⊢
          rw [← hid]
          exact hne
        have hcnt : countForId (r :: st) id = countForId st id + 1 := by
          simp [countForId, List.countP_cons, hid]
        rw [hcnt, h0]
      · have hcnt : countForId (r :: st) id = countForId st id := by
          simp [countForId, List.countP_cons, hid]
        rw [hcnt]
        exact hinv id

/-- C4 witness: two appends of a record with request id "req-1" into the empty
store leave exactly one record, the second reporting a conflict. -/
theorem c4_witness :
    countForId (historyAppend (historyAppend []
        ⟨"req-1", "user-1", .completed, ["a"], none, 0⟩).1
        ⟨"req-1", "user-1", .completed, ["a"], none, 0⟩).1 "req-1" = 1 ∧
    (historyAppend (historyAppend []
        ⟨"req-1", "user-1", .completed, ["a"], none, 0⟩).1
        ⟨"req-1", "user-1", .completed, ["a"], none, 0⟩).2 = .conflict :=
  c4_historyAppend_idempotent.1 []
    ⟨"req-1", "user-1", .completed, ["a"], none, 0⟩
    ⟨"req-1", "user-1", .completed, ["a"], none, 0⟩ rfl (by decide)

/-- C3: store/retrieve round-trip — for every backend (S3-backed or Inline),
every byte sequence and content type, storing and then retrieving by the
returned reference yields the stored bytes. -/
theorem c3_store_retrieve_roundtrip :
    ∀ (b : Backend) (bytes : List Nat) (ct : String),
      (∀ x ∈ bytes, x < 256) →
      (retrieve (store b bytes ct).1
          (store b bytes ct).2.1.url_or_identifier).1 = Except.ok bytes := by
  intro b bytes ct h
  cases b with
  | s3 st =>
      simp [store, retrieve, List.lookup]
  | inlineB =>
      simp [store, retrieve, b64decode_b64encode bytes h]

/-- C3 witness: round trip at concrete bytes for both a concrete S3-backed and
the Inline configuration. -/
theorem c3_witness :
    (retrieve (store (.s3 ⟨[], 0⟩) [0, 255, 16, 7] "image/png").1
        (store (.s3 ⟨[], 0⟩) [0, 255, 16, 7]
          "image/png").2.1.url_or_identifier).1 = Except.ok [0, 255, 16, 7] ∧
    (retrieve (store .inlineB [0, 255, 16, 7] "image/png").1
        (store .inlineB [0, 255, 16, 7]
          "image/png").2.1.url_or_identifier).1 = Except.ok [0, 255, 16, 7] :=
  ⟨c3_store_retrieve_roundtrip (.s3 ⟨[], 0⟩) [0, 255, 16, 7] "image/png"
      (by decide),
   c3_store_retrieve_roundtrip .inlineB [0, 255, 16, 7] "image/png"
      (by decide)⟩

/-- C7: with any object-storage credential absent at process start, the
selected backend is Inline, and every store call returns base64 content
directly in the asset, performs no network operation, and leaves the
once-selected backend unchanged. -/
theorem c7_inline_fallback :
    ∀ cfg : StorageConfig,
      (cfg.s3Endpoint = none ∨ cfg.s3AccessKey = none ∨
        cfg.s3SecretKey = none) →
      selectBackend cfg = .inlineB ∧
      ∀ (bytes : List Nat) (ct : String),
        (store (selectBackend cfg) bytes ct).2.2 = [] ∧
        (store (selectBackend cfg) bytes ct).2.1.storage_mode = .inline ∧
        (store (selectBackend cfg) bytes ct).2.1.url_or_identifier =
          String.mk (b64encode bytes) ∧
        (store (selectBackend cfg) bytes ct).1 = selectBackend cfg := by
  intro cfg h
  have hsel : selectBackend cfg = .inlineB := by
    rcases h with h | h | h <;> simp [selectBackend, h]
  refine ⟨hsel, ?_⟩
  intro bytes ct
  rw [hsel]
  exact ⟨rfl, rfl, rfl, rfl⟩

/-- C7 witness: instantiated at the fully-absent configuration and concrete
bytes. -/
theorem c7_witness :
    selectBackend ⟨none, none, none⟩ = .inlineB ∧
    (store (selectBackend ⟨none, none, none⟩) [1, 2, 3] "image/png").2.2 = [] ∧
    (store (selectBackend ⟨none, none, none⟩)
        [1, 2, 3] "image/png").2.1.storage_mode = .inline ∧
    (store (selectBackend ⟨none, none, none⟩)
        [1, 2, 3] "image/png").2.1.url_or_identifier =
      String.mk (b64encode [1, 2, 3]) ∧
    (store (selectBackend ⟨none, none, none⟩) [1, 2, 3] "image/png").1 =
      selectBackend ⟨none, none, none⟩ :=
  ⟨(c7_inline_fallback ⟨none, none, none⟩ (Or.inl rfl)).1,
   (c7_inline_fallback ⟨none, none, none⟩ (Or.inl rfl)).2 [1, 2, 3] "image/png"⟩

/-! ## Theorems for the compositor and orchestrator claims -/

/-- C1: `compose` is deterministic — equal background, cutout, placement, and
target-format inputs give equal (hence byte-identical) outputs; `compose` is
a pure function of these arguments, performing no external I/O. -/
theorem c1_compose_deterministic :
    ∀ (bg bg2 : Image) (cut cut2 : Option ProductCutout)
      (pl pl2 : Placement) (asp asp2 : Aspect),
      bg = bg2 → cut = cut2 → pl = pl2 → asp = asp2 →
      compose bg cut pl asp = compose bg2 cut2 pl2 asp2 := by
  intro bg bg2 cut cut2 pl pl2 asp asp2 h1 h2 h3 h4
  subst h1; subst h2; subst h3; subst h4
  rfl

/-- C1 witness: two invocations on a concrete 2×1 background and placement. -/
theorem c1_witness :
    compose ⟨2, 1, [⟨1, 2, 3, 255⟩, ⟨4, 5, 6, 255⟩]⟩ none ⟨50, 500, 700⟩
        .square =
      compose ⟨2, 1, [⟨1, 2, 3, 255⟩, ⟨4, 5, 6, 255⟩]⟩ none ⟨50, 500, 700⟩
        .square :=
  c1_compose_deterministic
    ⟨2, 1, [⟨1, 2, 3, 255⟩, ⟨4, 5, 6, 255⟩]⟩
    ⟨2, 1, [⟨1, 2, 3, 255⟩, ⟨4, 5, 6, 255⟩]⟩
    none none ⟨50, 500, 700⟩ ⟨50, 500, 700⟩ .square .square
    rfl rfl rfl rfl

/-- C2: for every background and every supported target format, the output
dimensions of `compose` are the configured canvas of that format and satisfy
the requested proportion exactly (so in particular within one pixel of
rounding); a 1600×900 background composed at 1:1 yields a 1080×1080 square
via center-crop. -/
theorem c2_compose_dimensions :
    ∀ (bg : Image) (cut : Option ProductCutout) (pl : Placement) (asp : Aspect),
      ((compose bg cut pl asp).image.width = asp.canvasW ∧
       (compose bg cut pl asp).image.height = asp.canvasH ∧
       (compose bg cut pl asp).image.width * asp.propH =
         (compose bg cut pl asp).image.height * asp.propW) ∧
      ∀ px : List Pixel,
        (compose ⟨1600, 900, px⟩ none pl .square).image.width = 1080 ∧
        (compose ⟨1600, 900, px⟩ none pl .square).image.height = 1080 := by
  have hw : ∀ (bg : Image) (cut : Option ProductCutout) (pl : Placement)
      (asp : Aspect), (compose bg cut pl asp).image.width = asp.canvasW := by
    intro bg cut pl asp; cases cut <;> cases asp <;> rfl
  have hh : ∀ (bg : Image) (cut : Option ProductCutout) (pl : Placement)
      (asp : Aspect), (compose bg cut pl asp).image.height = asp.canvasH := by
    intro bg cut pl asp; cases cut <;> cases asp <;> rfl
  intro bg cut pl asp
  refine ⟨⟨hw bg cut pl asp, hh bg cut pl asp, ?_⟩, ?_⟩
  · rw [hw, hh]; cases asp <;> rfl
  · intro px
    exact ⟨hw _ _ _ _, hh _ _ _ _⟩

/-- The poll loop returns the typed `ModelTimeout` failure when the remote
job is still running at every poll in the budget window. -/
theorem pollLoop_timeout (statusAt : Nat → PollStatus) :
    ∀ (fuel t : Nat), (∀ u, t ≤ u → u < t + fuel → statusAt u = .running) →
      pollLoop statusAt t fuel = .error .modelTimeout := by
  intro fuel
  induction fuel with
  | zero => intro t _; rfl
  | succ n ih =>
      intro t h
      have h0 : statusAt t = .running := h t le_rfl (by omega)
      show (match statusAt t with
        | .succeeded img => Except.ok img
        | .failed => Except.error .modelRejected
        | .running => pollLoop statusAt (t + 1) n) = Except.error .modelTimeout
      rw [h0]
      exact ih (t + 1) (fun u hu1 hu2 => h u (by omega) (by omega))

/-- Records with an absent request id are inserted by `historyAppend`. -/
theorem historyAppend_absent (st : List HistoryRecord) (r : HistoryRecord)
    (h0 : countForId st r.request_id = 0) :
    historyAppend st r = (r :: st, .ok) := by
  have habs : st.any (fun x => x.request_id == r.request_id) = false := by
    rw [List.any_eq_false]
    intro x hx
    have hz := List.countP_eq_zero.mp h0 x hx
    simpa using hz
  simp [historyAppend, habs]

/-- C5: when the Generative Model Client exceeds its poll budget (the remote
job is still running at every poll), `generate` returns the typed failure
`ModelTimeout` rather than throwing, the orchestrated run terminates in the
`Failed` state with that error kind preserved in its single history record,
and no `StoredAsset` is created. -/
theorem c5_poll_timeout_run_failed :
    ∀ (statusAt : Nat → PollStatus) (maxPolls : Nat) (pl : Placement)
      (asp : Aspect) (backend : Backend) (history : List HistoryRecord)
      (rid oid : String) (now : Nat),
      (∀ t, t < maxPolls → statusAt t = .running) →
      countForId history rid = 0 →
      generate statusAt maxPolls = .error .modelTimeout ∧
      (runPoster statusAt maxPolls pl asp backend history rid oid now).state =
        .failedState .modelTimeout ∧
      (runPoster statusAt maxPolls pl asp backend history rid oid now).stored =
        none ∧
      (runPoster statusAt maxPolls pl asp backend history rid oid now).history =
        ⟨rid, oid, .failed, [], some .modelTimeout, now⟩ :: history := by
  intro statusAt maxPolls pl asp backend history rid oid now hrun habs
  have hgen : generate statusAt maxPolls = .error .modelTimeout := by
    unfold generate
    exact pollLoop_timeout statusAt maxPolls 0
      (fun u hu1 hu2 => hrun u (by omega))
  have hins := historyAppend_absent history
    ⟨rid, oid, .failed, [], some .modelTimeout, now⟩ habs
  refine ⟨hgen, ?_, ?_, ?_⟩ <;> simp [runPoster, hgen, hins]

/-- C5 witness: a remote job that never leaves `running`, with a poll budget
of 3, an Inline backend, and an empty history store. -/
theorem c5_witness :
    generate (fun _ => .running) 3 = .error .modelTimeout ∧
    (runPoster (fun _ => .running) 3 ⟨50, 500, 700⟩ .square .inlineB []
        "req-9" "user-9" 5).state = .failedState .modelTimeout ∧
    (runPoster (fun _ => .running) 3 ⟨50, 500, 700⟩ .square .inlineB []
        "req-9" "user-9" 5).stored = none ∧
    (runPoster (fun _ => .running) 3 ⟨50, 500, 700⟩ .square .inlineB []
        "req-9" "user-9" 5).history =
      [⟨"req-9", "user-9", .failed, [], some .modelTimeout, 5⟩] :=
  c5_poll_timeout_run_failed (fun _ => .running) 3 ⟨50, 500, 700⟩ .square
    .inlineB [] "req-9" "user-9" 5 (fun t _ => rfl) (by decide)

/-! ## Theorems for the extractor claim -/

/-- `getD` on a replicated list returns the replicated element in range. -/
theorem getD_replicate_of_lt {α : Type} (n : Nat) (a d : α) (i : Nat)
    (hi : i < n) : (List.replicate n a).getD i d = a := by
  rw [List.getD_eq_getElem _ _ (by simpa using hi)]
  simp

/-- `maskAt` of an all-background mask is background everywhere. -/
theorem maskAt_false (mask : List Bool) (hm : ∀ b ∈ mask, b = false)
    (i : Nat) : maskAt mask i = false := by
  unfold maskAt
  rcases Nat.lt_or_ge i mask.length with hi | hi
  · rw [List.getD_eq_getElem _ _ hi]
    exact hm _ (List.getElem_mem hi)
  · exact List.getD_eq_default _ _ hi

/-- The dominant color of a nonempty constant list is that constant. -/
theorem dominant_const (l : List Pixel) (c : Pixel) (hne : l ≠ [])
    (h : ∀ x ∈ l, x = c) : dominant l = c := by
  unfold dominant
  have aux : ∀ (m : List Pixel) (acc : Pixel), (∀ x ∈ m, x = c) → acc = c →
      m.foldl (fun best x => if l.count best < l.count x then x else best)
        acc = c := by
    intro m
    induction m with
    | nil => intro acc _ hacc; simpa using hacc
    | cons a tl ih =>
        intro acc hm hacc
        have ha : a = c := hm a (by simp)
        rw [List.foldl_cons]
        apply ih
        · intro x hx; exact hm x (by simp [hx])
        · subst ha; subst hacc; simp
  apply aux l _ h
  cases l with
  | nil => exact absurd rfl hne
  | cons a tl => simpa using h a (by simp)

/-- Background estimation on a uniform image returns the uniform color. -/
theorem estimateBackground_uniform (w h : Nat) (c : Pixel)
    (hw : 0 < w) (hh : 0 < h) :
    estimateBackground ⟨w, h, List.replicate (w * h) c⟩ = c := by
  show dominant ((borderIdx w h).map
    (fun i => (List.replicate (w * h) c).getD i ⟨0, 0, 0, 255⟩)) = c
  have hmem : ∀ i ∈ borderIdx w h, i < h * w := by
    intro i hi
    unfold borderIdx at hi
    rw [List.mem_filter] at hi
    exact List.mem_range.mp hi.1
  apply dominant_const
  · have h0 : 0 ∈ borderIdx w h := by
      unfold borderIdx
      rw [List.mem_filter]
      refine ⟨List.mem_range.mpr (Nat.mul_pos hh hw), ?_⟩
      simp [Nat.zero_mod]
    intro hcon
    rw [List.map_eq_nil_iff] at hcon
    rw [hcon] at h0
    exact List.not_mem_nil 0 h0
  · intro x hx
    rw [List.mem_map] at hx
    obtain ⟨i, hi, rfl⟩ := hx
    exact getD_replicate_of_lt _ _ _ _ (by rw [Nat.mul_comm]; exact hmem i hi)

/-- The thresholded mask of a uniform image is all background. -/
theorem thresholdMask_uniform (w h : Nat) (c : Pixel) (cfg : ExtractConfig)
    (hw : 0 < w) (hh : 0 < h) :
    ∀ b ∈ thresholdMask ⟨w, h, List.replicate (w * h) c⟩ cfg, b = false := by
  intro b hb
  have hest := estimateBackground_uniform w h c hw hh
  unfold thresholdMask at hb
  rw [List.mem_map] at hb
  obtain ⟨i, hi, rfl⟩ := hb
  rw [List.mem_range] at hi
  have hget : (List.replicate (w * h) c).getD i ⟨0, 0, 0, 255⟩ = c :=
    getD_replicate_of_lt _ _ _ _ (by rw [Nat.mul_comm]; exact hi)
  rw [show (⟨w, h, List.replicate (w * h) c⟩ : Image).pixels =
    List.replicate (w * h) c from rfl, hest, hget]
  simp [colorDist, chanDiff]

/-- Noise removal keeps an all-background mask all background. -/
theorem denoiseMask_all_false (w h : Nat) (mask : List Bool)
    (hm : ∀ b ∈ mask, b = false) :
    ∀ b ∈ denoiseMask w h mask, b = false := by
  intro b hb
  unfold denoiseMask at hb
  rw [List.mem_map] at hb
  obtain ⟨i, _, rfl⟩ := hb
  rw [maskAt_false mask hm i]
  simp

/-- Hole filling keeps an all-background mask all background. -/
theorem fillMask_all_false (w h : Nat) (mask : List Bool)
    (hm : ∀ b ∈ mask, b = false) :
    ∀ b ∈ fillMask w h mask, b = false := by
  intro b hb
  unfold fillMask at hb
  rw [List.mem_map] at hb
  obtain ⟨i, _, rfl⟩ := hb
  rw [maskAt_false mask hm i]
  cases hn : neighborsIdx w h i with
  | nil => simp [hn]
  | cons j js => simp [hn, maskAt_false mask hm j]

/-- Cleanup keeps an all-background mask all background. -/
theorem cleanupMask_all_false (w h : Nat) (mask : List Bool)
    (hm : ∀ b ∈ mask, b = false) :
    ∀ b ∈ cleanupMask w h mask, b = false := by
  intro b hb
  exact fillMask_all_false w h _ (denoiseMask_all_false w h mask hm) b hb

/-- An all-background mask has zero foreground area. -/
theorem maskArea_eq_zero (mask : List Bool) (hm : ∀ b ∈ mask, b = false) :
    maskArea mask = 0 := by
  unfold maskArea
  rw [List.count_eq_zero]
  intro hmem
  exact Bool.noConfusion (hm true hmem)

/-- C6: `extract` fails with `UnsupportedImageFormat` on every input whose
decoding fails; it fails with `NoForegroundDetected` on every decoded image
whose cleaned foreground mask covers less than the minimal area fraction — in
particular on every all-background (uniform) image. -/
theorem c6_extract_failures :
    (∀ (decode : List Nat → Option Image) (cfg : ExtractConfig)
        (src : List Nat),
        decode src = none →
        extract decode cfg src = .error .unsupportedImageFormat) ∧
    (∀ (decode : List Nat → Option Image) (cfg : ExtractConfig)
        (src : List Nat) (img : Image),
        decode src = some img →
        maskArea (cleanupMask img.width img.height (thresholdMask img cfg)) *
            100 < cfg.minAreaPct * (img.width * img.height) →
        extract decode cfg src = .error .noForegroundDetected) ∧
    (∀ (decode : List Nat → Option Image) (cfg : ExtractConfig)
        (src : List Nat) (w h : Nat) (c : Pixel),
        decode src = some ⟨w, h, List.replicate (w * h) c⟩ →
        0 < w → 0 < h → 0 < cfg.minAreaPct →
        extract decode cfg src = .error .noForegroundDetected) := by
  refine ⟨?_, ?_, ?_⟩
  · intro decode cfg src hd
    unfold extract
    rw [hd]
  · intro decode cfg src img hd hlt
    unfold extract
    rw [hd]
    exact if_pos hlt
  · intro decode cfg src w h c hd hw hh hpct
    have hmask := thresholdMask_uniform w h c cfg hw hh
    have hclean := cleanupMask_all_false w h
      (thresholdMask ⟨w, h, List.replicate (w * h) c⟩ cfg) hmask
    have harea := maskArea_eq_zero _ hclean
    unfold extract
    rw [hd]
    have hcond : maskArea (cleanupMask w h
        (thresholdMask ⟨w, h, List.replicate (w * h) c⟩ cfg)) * 100 <
        cfg.minAreaPct * (w * h) := by
      rw [harea]
      simpa using Nat.mul_pos hpct (Nat.mul_pos hw hh)
    exact if_pos hcond

/-- C6 witness: a decoder that rejects everything, and a decoder returning a
concrete 2×2 uniform image, both at a 10/1/1 configuration. -/
theorem c6_witness :
    extract (fun _ => none) ⟨10, 1, 1⟩ [0] =
      .error .unsupportedImageFormat ∧
    extract (fun _ => some ⟨2, 2, List.replicate 4 ⟨9, 9, 9, 255⟩⟩)
        ⟨10, 1, 1⟩ [0] = .error .noForegroundDetected :=
  ⟨c6_extract_failures.1 (fun _ => none) ⟨10, 1, 1⟩ [0] rfl,
   c6_extract_failures.2.2
     (fun _ => some ⟨2, 2, List.replicate 4 ⟨9, 9, 9, 255⟩⟩)
     ⟨10, 1, 1⟩ [0] 2 2 ⟨9, 9, 9, 255⟩ rfl
     (by decide) (by decide) (by decide)⟩

/-! ## Theorems for the frontend claims -/

/-- C8: the code bug behind the claim.  `getMembershipConfig` is documented
(and return-typed) to yield the free-tier entry on every invalid tier, but
the JavaScript `in` operator of membership.ts:48 consults the prototype
chain: at the invalid input "toString" the key test passes and the function
returns the inherited `Object.prototype.toString` member — not
`MEMBERSHIP_CONFIG.free` as the claim states.  On the three tier names the
function returns the matching own entry, and on invalid strings that are not
inherited property names (such as "premium") it does return the free
entry. -/
theorem c8_getMembershipConfig_prototype_bug :
    getMembershipConfigJs "toString" = MemberValue.inherited "toString" ∧
    MemberValue.inherited "toString" ≠
      MemberValue.config (MEMBERSHIP_CONFIG .free) ∧
    getMembershipConfigJs "free" =
      MemberValue.config (MEMBERSHIP_CONFIG .free) ∧
    getMembershipConfigJs "basic" =
      MemberValue.config (MEMBERSHIP_CONFIG .basic) ∧
    getMembershipConfigJs "professional" =
      MemberValue.config (MEMBERSHIP_CONFIG .professional) ∧
    getMembershipConfigJs "premium" =
      MemberValue.config (MEMBERSHIP_CONFIG .free) := by
  refine ⟨by decide, by decide, by decide, by decide, by decide, by decide⟩

/-- C9: `isValidMembershipTier` decides exactly the three tier names
(case-sensitively), and on every valid name `getMembershipConfig` returns the
`MEMBERSHIP_CONFIG` entry of the corresponding tier. -/
theorem c9_isValidMembershipTier_decides :
    ∀ tier : String,
      (isValidMembershipTier tier = true ↔
        tier = "free" ∨ tier = "basic" ∨ tier = "professional") ∧
      (isValidMembershipTier tier = true →
        ∃ t : MembershipTier, lookupTier tier = some t ∧
          getMembershipConfig tier = MEMBERSHIP_CONFIG t) := by
  intro tier
  have hval : isValidMembershipTier tier = true ↔
      tier = "free" ∨ tier = "basic" ∨ tier = "professional" := by
    simp only [isValidMembershipTier, MEMBERSHIP_TIERS, MembershipTier.name,
      List.any_cons, List.any_nil, Bool.or_eq_true, beq_iff_eq, Bool.or_false]
    tauto
  refine ⟨hval, ?_⟩
  · intro hv
    rcases hval.mp hv with h | h | h
    · exact ⟨.free, by simp [lookupTier, h], by simp [getMembershipConfig, lookupTier, h]⟩
    · exact ⟨.basic, by simp [lookupTier, h], by simp [getMembershipConfig, lookupTier, h]⟩
    · exact ⟨.professional, by simp [lookupTier, h],
        by simp [getMembershipConfig, lookupTier, h]⟩

/-- C9 witness: instantiated at "basic" (valid) — the implication is discharged
concretely. -/
theorem c9_witness :
    isValidMembershipTier "basic" = true ∧
    (∃ t : MembershipTier, lookupTier "basic" = some t ∧
      getMembershipConfig "basic" = MEMBERSHIP_CONFIG t) :=
  ⟨by decide, (c9_isValidMembershipTier_decides "basic").2 (by decide)⟩

/-- C10: `ErrorBoundary` renders its children exactly when no error is
recorded; with `hasError` set it renders the provided fallback, or the default
`ErrorFallback` carrying the caught error; `getDerivedStateFromError` records
the error with `hasError := true`, and `handleRetry` clears `hasError`. -/
theorem c10_errorBoundary_render :
    (∀ (props : ErrorBoundaryProps) (state : ErrorBoundaryState),
        state.hasError = false →
        ErrorBoundary.render props state = props.children) ∧
    (∀ (props : ErrorBoundaryProps) (state : ErrorBoundaryState) (fb : ReactNode),
        state.hasError = true → props.fallback = some fb →
        ErrorBoundary.render props state = fb) ∧
    (∀ (props : ErrorBoundaryProps) (state : ErrorBoundaryState),
        state.hasError = true → props.fallback = none →
        ErrorBoundary.render props state = ReactNode.errorFallbackElem state.error) ∧
    (∀ e : JsError,
        getDerivedStateFromError e = ⟨true, some e⟩) ∧
    handleRetry.hasError = false := by
  refine ⟨?_, ?_, ?_, fun e => rfl, rfl⟩
  · intro props state h
    simp [ErrorBoundary.render, h]
  · intro props state fb h hfb
    simp [ErrorBoundary.render, h, hfb]
  · intro props state h hfb
    simp [ErrorBoundary.render, h, hfb]

/-- C10 witness: concrete props and states exercising each case of the
rendering contract. -/
theorem c10_witness :
    ErrorBoundary.render ⟨.node "app", none⟩ ⟨false, none⟩ = .node "app" ∧
    ErrorBoundary.render ⟨.node "app", some (.node "custom")⟩
        ⟨true, some ⟨"boom"⟩⟩ = .node "custom" ∧
    ErrorBoundary.render ⟨.node "app", none⟩ ⟨true, some ⟨"boom"⟩⟩ =
        ReactNode.errorFallbackElem (some ⟨"boom"⟩) :=
  ⟨c10_errorBoundary_render.1 ⟨.node "app", none⟩ ⟨false, none⟩ rfl,
   c10_errorBoundary_render.2.1 ⟨.node "app", some (.node "custom")⟩
     ⟨true, some ⟨"boom"⟩⟩ (.node "custom") rfl rfl,
   c10_errorBoundary_render.2.2.1 ⟨.node "app", none⟩ ⟨true, some ⟨"boom"⟩⟩ rfl rfl⟩

end ZStudio
